import Mathlib

/-!
Shallow embedding of the Generic Data Collection Infrastructure core
(`src/core/state.py`, `src/core/observable.py`, `src/core/actionmanager.py`,
`src/core/action.py`, `src/core/thread.py`) together with proofs checking the
natural-language specification against the code.

Modelling conventions:
* Python's three truth values `True`/`False`/`None` become `TV.tt`/`TV.ff`/`TV.undef`.
* Python values that can be returned by `get_observation` are modelled by the
  inductive `PyVal`; dictionaries are association lists keyed by naturals
  (attribute names are abstracted to naturals).
* Exceptions are modelled by `PyErr`; a fallible operation returns
  `Except PyErr _`, or a pair `Option PyErr × _` when the state surviving the
  raise matters.
* Python object identity (needed for `copy()` and for `set` semantics, which
  hash `State` objects by id in Python 2) is modelled by a small heap of
  `StateObj`s addressed by naturals.
-/

namespace GDCI

/-- Three-valued logic of the State primary fields: Python `True`, `False`, `None`. -/
inductive TV where
  | tt : TV
  | ff : TV
  | undef : TV
deriving DecidableEq, Repr

/-- The list `[True, False, None]` that `state.py` iterates over when it
expands a wildcard axis. -/
def tvAll : List TV := [TV.tt, TV.ff, TV.undef]

/-- Python values relevant to the `get_observation` contract: the three truth
values, tuples, lists, and dictionaries (keyed by naturals, standing in for
arbitrary hashable keys). -/
inductive PyVal where
  | prim : TV → PyVal
  | ptuple : List PyVal → PyVal
  | plist : List PyVal → PyVal
  | pdict : List (Nat × PyVal) → PyVal

/-- Python exceptions that the embedded code paths can raise. -/
inductive PyErr where
  | typeError : PyErr
  | keyError : PyErr
  | indexError : PyErr
  | runtimeError : PyErr
deriving DecidableEq, Repr

/-- A Python dictionary as an association list (first binding wins on lookup). -/
abbrev AttrMap := List (Nat × PyVal)

/-- Python dict lookup `d[k]` as an option: the first binding with the key. -/
def dictGet {κ ν : Type} [DecidableEq κ] (k : κ) : List (κ × ν) → Option ν
  | [] => none
  | kv :: rest => if kv.1 = k then some kv.2 else dictGet k rest

/-- Python dict assignment `d[k] = v`: replace the binding if the key is present,
append it otherwise. -/
def dictSet {κ ν : Type} [DecidableEq κ] (d : List (κ × ν)) (k : κ) (v : ν) :
    List (κ × ν) :=
  if (dictGet k d).isSome then
    d.map (fun kv => if kv.1 = k then (k, v) else kv)
  else
    d ++ [(k, v)]

/-- Python dict deletion `del d[k]` (the key is known to be present at call sites). -/
def dictErase {κ ν : Type} [DecidableEq κ] (d : List (κ × ν)) (k : κ) :
    List (κ × ν) :=
  d.filter (fun kv => kv.1 ≠ k)

/-- Python dict `d.update(u)`: every binding of `u` is written into `d`. -/
def dictUpdate (d upd : AttrMap) : AttrMap :=
  upd.foldl (fun acc kv => dictSet acc kv.1 kv.2) d

/-- A `State` object's data (`state.py`, class `State`): the two primary
attributes and the secondary-attribute dictionary.  The per-instance `RLock`
carries no data and is modelled only in the heap model below (`StateObj`),
where lock identity matters. -/
structure StateV where
  is_operating : TV
  result : TV
  secondary_attributes : AttrMap

/-- Method `State.__eq__`: two states are equal iff their primary attributes agree;
secondary attributes are ignored. -/
def stateEq (a b : StateV) : Bool :=
  a.is_operating == b.is_operating && a.result == b.result

/-- Method `State.get_primary`: the `(is_operating, result)` tuple used as a map key. -/
def get_primary (s : StateV) : TV × TV :=
  (s.is_operating, s.result)

/-- Constructor arguments of `State.__new__`: a plain truth value or the
wildcard marker `'*'`. -/
inductive StArg where
  | val : TV → StArg
  | star : StArg
deriving DecidableEq, Repr

/-- What `State(...)` evaluates to: a single `State`, or a `StateCollection`
holding the wildcard cross product (`state.py`, `State.__new__`). -/
inductive StateOrColl where
  | single : StateV → StateOrColl
  | coll : List StateV → StateOrColl

/-- Methods `State.__new__` / `State.__init__`: without a wildcard the single state is
built; with a wildcard on either axis that axis is expanded to
`[True, False, None]` and the cross product is returned as a collection. -/
def stateNew (is_operating result : StArg) : StateOrColl :=
  match is_operating, result with
  | StArg.val op, StArg.val r =>
      StateOrColl.single { is_operating := op, result := r, secondary_attributes := [] }
  | _, _ =>
      let op_list := match is_operating with
        | StArg.star => tvAll
        | StArg.val v => [v]
      let res_list := match result with
        | StArg.star => tvAll
        | StArg.val v => [v]
      StateOrColl.coll (op_list.flatMap fun op =>
        res_list.map fun r =>
          ({ is_operating := op, result := r, secondary_attributes := [] } : StateV))

/-! ## `observable.py`: the `get_observation` shape check and `check_observation` -/

/-- Whether `len(v)` succeeds in Python: the three truth values have no
`__len__`; tuples, lists and dicts do. -/
def hasLen : PyVal → Bool
  | PyVal.prim _ => false
  | _ => true

/-- Value of Python `len(v)` for sized values (dict length counts its bindings; the
well-formed dictionaries used here have distinct keys). -/
def pyLen : PyVal → Nat
  | PyVal.prim _ => 0
  | PyVal.ptuple l => l.length
  | PyVal.plist l => l.length
  | PyVal.pdict l => l.length

/-- Subscription `v[i]` for a natural index: tuples and lists index positionally
(raising an index error out of range); dictionaries look the index up as a
key (raising a key error when absent); scalars cannot be subscripted. -/
def getItem : PyVal → Nat → Except PyErr PyVal
  | PyVal.prim _, _ => Except.error PyErr.typeError
  | PyVal.ptuple l, i =>
      match l.get? i with
      | some v => Except.ok v
      | none => Except.error PyErr.indexError
  | PyVal.plist l, i =>
      match l.get? i with
      | some v => Except.ok v
      | none => Except.error PyErr.indexError
  | PyVal.pdict l, i =>
      match dictGet i l with
      | some v => Except.ok v
      | none => Except.error PyErr.keyError

/-- Test `v in [True, False, None]` for our value universe: tuples, lists
and dicts never compare equal to a truth value. -/
def inTFN : PyVal → Bool
  | PyVal.prim _ => true
  | _ => false

/-- Test `v.__class__ is dict`. -/
def isDict : PyVal → Bool
  | PyVal.pdict _ => true
  | _ => false

/-- The shape check of `check_observation` (`observable.py` lines 85–103).
The code evaluates
`len(result) == 2 and result[0] in [True, False, None] and result[1].__class__ is dict`
inside `try: ... except TypeError:`; a `TypeError` (from `len` on a scalar or
from the explicit `raise` on a failed condition) falls into the handler,
which accepts `result` itself when it is a truth value and raises `TypeError`
otherwise.  Any non-`TypeError` exception raised while evaluating the
condition (a `KeyError` from subscripting a dictionary) escapes. -/
def parseObservation (observed : TV) (result : PyVal) : Except PyErr (StateV × AttrMap) :=
  -- the `except TypeError` handler: `result in [True, False, None]` or raise
  let handler : Except PyErr (StateV × AttrMap) :=
    match result with
    | PyVal.prim r =>
        Except.ok ({ is_operating := observed, result := r, secondary_attributes := [] }, [])
    | _ => Except.error PyErr.typeError
  if hasLen result then
    if pyLen result == 2 then
      match getItem result 0 with
      | Except.error e => Except.error e
      | Except.ok v0 =>
        match v0 with
        | PyVal.prim r =>
          match getItem result 1 with
          | Except.error e => Except.error e
          | Except.ok (PyVal.pdict d) =>
              Except.ok ({ is_operating := observed, result := r, secondary_attributes := [] }, d)
          | Except.ok _ => handler  -- condition false → raise TypeError → caught
        | _ => handler              -- result[0] not a truth value → condition false
    else handler                    -- len(result) != 2 → condition false
  else handler                      -- len(result) raised TypeError → caught

/-- The initial cached state of a `CoreObservable`: `State()` is
`State(None, None)` (`observable.py`, `CoreObservable.__init__`). -/
def initialState : StateV :=
  { is_operating := TV.undef, result := TV.undef, secondary_attributes := [] }

/-- Outcome of one `check_observation` call: the state that is now cached
(which is also the state the call returns — both branches return
`self.__current_state`), and the `(initial, final)` state pairs sent to
`action_manager.check_state_change` (each with the observable itself). -/
structure CheckResult where
  state : StateV
  notified : List (StateV × StateV)

/-- Method `CoreObservable.check_observation` (`observable.py` lines 60–128)
after the `get_observation` call: parse the observed value, and compare the
new state against the cached one.  If the parsed new state equals the cached
one (primary attributes), the new secondary attributes are merged into the
retained cached state, nothing is reported, and that state is returned.
Otherwise the attributes are merged into the new state, copies of the old
and new states are reported to the action manager, and the new state becomes
the cache and is returned. -/
def checkParsed (current : StateV) (observed : TV) (result : PyVal) :
    Except PyErr CheckResult :=
  match parseObservation observed result with
  | Except.error e => Except.error e
  | Except.ok (new_state, new_attribs) =>
    if stateEq current new_state then
      Except.ok
        { state :=
            { current with
              secondary_attributes := dictUpdate current.secondary_attributes new_attribs },
          notified := [] }
    else
      Except.ok
        { state :=
            { new_state with
              secondary_attributes := dictUpdate new_state.secondary_attributes new_attribs },
          notified :=
            [(current,
              { new_state with
                secondary_attributes := dictUpdate new_state.secondary_attributes new_attribs })] }

/-- Wrapper dispatching on the outcome of `get_observation`: a returned value
`v` proceeds with `observed = True`; a raised exception retains the cached
result with `observed = False`. -/
def check_observation (current : StateV) (obs : Except Unit PyVal) :
    Except PyErr CheckResult :=
  match obs with
  | Except.ok v => checkParsed current TV.tt v
  | Except.error _ => checkParsed current TV.ff (PyVal.prim current.result)

/-! ## `actionmanager.py`: the singleton dispatcher's registries

Python `set`s of action classes are modelled as duplicate-free lists of
action identifiers; `dict`s are association lists.  Observables, action
classes and action instances (threads) are identified by naturals. -/

abbrev ObsId := Nat
abbrev ActionId := Nat
abbrev ThreadId := Nat

/-- A key of the action mapping: `(observation, initial.get_primary(), final.get_primary())`. -/
abbrev Key := ObsId × (TV × TV) × (TV × TV)

/-- Python set `s.add`-style insertion keeping the list duplicate-free. -/
def pysetInsert {α : Type} [DecidableEq α] (l : List α) (a : α) : List α :=
  if a ∈ l then l else l ++ [a]

/-- Python set `s.update(t)`. -/
def pysetUnion {α : Type} [DecidableEq α] (l m : List α) : List α :=
  m.foldl pysetInsert l

/-- Python set `s.intersection(t)`. -/
def pysetInter {α : Type} [DecidableEq α] (l m : List α) : List α :=
  l.filter (fun a => a ∈ m)

/-- Python set `s.difference_update(t)` (the updated value). -/
def pysetDiff {α : Type} [DecidableEq α] (l m : List α) : List α :=
  l.filter (fun a => a ∉ m)

/-- The mutable registries of `CoreActionManager`: the action mapping, the
thread-tracking mapping, and the FIFO action queue. -/
structure AMState where
  action_mapping : List (Key × List ActionId)
  thread_mapping : List (ThreadId × Key)
  action_queue : List (ActionId × ObsId × StateV × StateV)

/-- The keys `(observation, i.get_primary(), f.get_primary())` built by
iterating the initial and final state collections (`actionmanager.py`,
lines 94–98 and 136–140). -/
def transitionKeys (observation : ObsId) (initial_state final_state : List StateV) :
    List Key :=
  initial_state.flatMap fun i =>
    final_state.map fun f => (observation, get_primary i, get_primary f)

/-- Method `CoreActionManager.associate_action_with_state_change` after input
normalisation: union the action set into every key's entry, creating absent
entries. -/
def associate_action_with_state_change (am : AMState) (action : List ActionId)
    (observation : ObsId) (initial_state final_state : List StateV) : AMState :=
  let keys := transitionKeys observation initial_state final_state
  { am with
    action_mapping := keys.foldl (fun m key =>
      match dictGet key m with
      | some s => dictSet m key (pysetUnion s action)
      | none => m ++ [(key, action)]) am.action_mapping }

/-- The per-key validation of `disassociate_action_from_state_change`
(`actionmanager.py` lines 147–155): the key must be present and the
intersection of its action set with the given actions must have length
exactly 1, otherwise a `KeyError` is raised. -/
def keyOk (m : List (Key × List ActionId)) (action : List ActionId) (k : Key) : Bool :=
  match dictGet k m with
  | none => false
  | some s => (pysetInter s action).length == 1

/-- The removal loop of `disassociate_action_from_state_change`
(`actionmanager.py` lines 158–162), processed sequentially: for each key,
`action_mapping[key].difference_update(action)` and deletion of the entry
when it became empty.  Looking up a key that an earlier iteration deleted
raises a `KeyError`, leaving the partially mutated mapping behind. -/
def removeKeys (m : List (Key × List ActionId)) (action : List ActionId) :
    List Key → Option PyErr × List (Key × List ActionId)
  | [] => (none, m)
  | k :: rest =>
    match dictGet k m with
    | none => (some PyErr.keyError, m)
    | some s =>
      let s2 := pysetDiff s action
      let m2 := if s2.length == 0 then dictErase m k else dictSet m k s2
      removeKeys m2 action rest

/-- Method `CoreActionManager.disassociate_action_from_state_change` after input
normalisation: validate every key first (raising `KeyError` with the mapping
untouched on failure), then run the removal loop. -/
def disassociate_action_from_state_change (am : AMState) (action : List ActionId)
    (observation : ObsId) (initial_state final_state : List StateV) :
    Option PyErr × AMState :=
  let keys := transitionKeys observation initial_state final_state
  if keys.all (keyOk am.action_mapping action) then
    let r := removeKeys am.action_mapping action keys
    (r.1, { am with action_mapping := r.2 })
  else
    (some PyErr.keyError, am)

/-- An argument of `check_state_change`: a singular `State` or a
`StateCollection` (anything with a `len`). -/
inductive StateArgv where
  | single : StateV → StateArgv
  | coll : List StateV → StateArgv

/-- Method `CoreActionManager.check_state_change` (`actionmanager.py` lines 164–198):
each state argument is probed with `len(...)`; a collection (which has a
length) raises a `TypeError` before anything else happens.  For singular
states, the key is looked up; no entry means no effect, and an entry appends
one `(action, observation, initial_state, final_state)` tuple to the queue
per action class in the entry. -/
def check_state_change (am : AMState) (observation : ObsId)
    (initial_state final_state : StateArgv) : Option PyErr × AMState :=
  match initial_state, final_state with
  | StateArgv.single i, StateArgv.single f =>
    let key : Key := (observation, get_primary i, get_primary f)
    (match dictGet key am.action_mapping with
     | none => (none, am)
     | some actions =>
        (none, { am with
          action_queue := am.action_queue ++ actions.map (fun a => (a, observation, i, f)) }))
  | _, _ => (some PyErr.typeError, am)

/-- Method `CoreActionManager.action_completed` (`actionmanager.py` lines 236–254):
remove the instance from the tracking table; a completion report for an
untracked instance raises a `RuntimeError`. -/
def action_completed (am : AMState) (action : ThreadId) : Option PyErr × AMState :=
  match dictGet action am.thread_mapping with
  | some _ => (none, { am with thread_mapping := dictErase am.thread_mapping action })
  | none => (some PyErr.runtimeError, am)

/-! ## Object identity: heap model for `State.copy` and Python `set` semantics

`State.copy` acquires the instance lock and deep-copies the object; the
`__deepcopy__` workaround reconstructs the object (same primary attributes,
a copy of the secondary-attribute dictionary) and installs a fresh `RLock`
in place of the live one.  Identity and lock freshness only make sense
relative to a heap, so `State` objects get addresses and lock identifiers. -/

/-- A heap-allocated `State` object: the data of `StateV` plus the identity
of its `threading.RLock`. -/
structure StateObj where
  is_operating : TV
  result : TV
  secondary_attributes : AttrMap
  lockId : Nat

/-- A heap of `State` objects; the address of an object is its index, and
`nextLock` is the identity the next freshly created `RLock` receives. -/
structure Heap where
  objs : List StateObj
  nextLock : Nat

/-- Dereference an address. -/
def Heap.get (h : Heap) (a : Nat) : Option StateObj :=
  h.objs[a]?

/-- Methods `State.copy` / `State.__deepcopy__` (`state.py` lines 137–174): allocate a
new object with the same primary attributes and a copy of the secondary
dictionary, and give it a fresh `RLock` (the live lock is marked in the memo
and never duplicated).  Returns the new heap and the copy's address. -/
def stateCopy (h : Heap) (a : Nat) : Heap × Nat :=
  match h.get a with
  | none => (h, a)
  | some o =>
      ({ objs := h.objs ++ [{ o with lockId := h.nextLock }],
         nextLock := h.nextLock + 1 },
       h.objs.length)

/-- Method `State.set_secondary` (`state.py` lines 187–195) on a heap object:
`self.secondary_attributes[key] = value` under the instance lock. -/
def set_secondary (h : Heap) (a : Nat) (k : Nat) (v : PyVal) : Heap :=
  match h.get a with
  | none => h
  | some o =>
      { h with
        objs := h.objs.set a
          { o with secondary_attributes := dictSet o.secondary_attributes k v } }

/-- Method `State.__eq__` between two heap objects (by address); a dangling address
compares unequal, like the `AttributeError` fallback in the code. -/
def valueEqAt (h : Heap) (a b : Nat) : Bool :=
  match h.get a, h.get b with
  | some oa, some ob => oa.is_operating == ob.is_operating && oa.result == ob.result
  | _, _ => false

/-! ### Python `set` semantics over heap addresses

States define `__eq__` but no `__hash__`, so in Python 2 they hash by
identity: two distinct `State` objects never collide in a `set`'s hash
table, and plain-`set` membership, union and subset tests are effectively
identity-based.  `StateCollection` overrides only `__contains__` (identity
first, then value equality); `set.__or__` and `set.issubset`/`<=` run at the
C level, return plain `set`s and bypass the override. -/

/-- Method `StateCollection.__contains__` (`state.py` lines 216–232): linear scan,
object identity first, value equality second. -/
def scContains (h : Heap) (c : List Nat) (item : Nat) : Bool :=
  c.any (fun other => other == item || valueEqAt h other item)

/-- Plain-`set` membership as CPython computes it for id-hashed `State`
objects: the hash probe only ever finds the object itself. -/
def pysetMem (c : List Nat) (item : Nat) : Bool :=
  c.contains item

/-- Operator `set.__or__` on id-hashed elements (the type of the result is plain
`set`, not `StateCollection`). -/
def pysetOr (c1 c2 : List Nat) : List Nat :=
  pysetUnion c1 c2

/-- Methods `State.union` / `State.__or__` of two singular states (`state.py` lines
119–135): wrap both in collections and union them; the result holds both
objects (one object if unioned with itself). -/
def stateUnion (selfa other : Nat) : List Nat :=
  pysetOr (pysetInsert [] selfa) (pysetInsert [] other)

/-- Comparison `set.issubset` / `<=` as CPython computes it for id-hashed `State`
objects: every element of the left set must be identity-present in the
right one (the `StateCollection.__contains__` override is not consulted). -/
def pysetIssubset (c1 c2 : List Nat) : Bool :=
  c1.all (fun a => c2.contains a)

/-! ## `thread.py` / `action.py`: the one-shot action lifecycle

`CoreAction.__init__` forces `do_loop = False` when the caller does not
supply it, so a fired action runs `CoreThread.run`'s one-shot path:
`before_loop()` (→ `setup`), one `main_loop()` call (→ `perform_action`),
then `after_loop()` (→ `cleanup`, then
`action_manager.action_completed(self)`).  `run` installs no exception
handler, so a raise in any hook skips everything after it. -/

/-- Outcome of a user hook: normal return or a raised exception. -/
inductive HookRes where
  | ok : HookRes
  | raise : HookRes
deriving DecidableEq, Repr

/-- The overridable hooks of a concrete `CoreAction`.  In `CoreAction`
itself `setup` and `cleanup` default to `pass` (never raise); only
`perform_action` is user logic, and an unoverridden one raises
`NotImplementedError`. -/
structure ActionHooks where
  setup : HookRes
  perform_action : HookRes
  cleanup : HookRes

/-- Method `CoreAction.__init__` (`action.py` lines 32–34): when `do_loop` is not
supplied (neither as a keyword nor among three positional extras), it is
forced to `False`, so the action's step runs exactly once. -/
def coreActionDoLoop (kwarg : Option Bool) (numPositional : Nat) : Option Bool :=
  if kwarg.isNone ∧ numPositional < 3 then some false else kwarg

/-- What one run of a fired action did. -/
structure ActionTrace where
  setupRan : Bool
  performCalls : Nat
  cleanupRan : Bool
  completionReports : Nat
  escaped : Bool
deriving DecidableEq, Repr

/-- Method `CoreThread.run` (`thread.py` lines 72–114) specialised to a
`CoreAction` with `do_loop = False`, recording which hooks ran:
`before_loop` calls `setup`; the not-`do_loop` branch calls `main_loop`
(that is, `perform_action`) once; the `while` loop body never runs; and
`after_loop` calls `cleanup` and then reports completion to the action
manager.  An exception escaping any hook aborts the remainder of `run`. -/
def coreActionRunOnce (hooks : ActionHooks) : ActionTrace :=
  match hooks.setup with
  | HookRes.raise =>
      { setupRan := true, performCalls := 0, cleanupRan := false,
        completionReports := 0, escaped := true }
  | HookRes.ok =>
    match hooks.perform_action with
    | HookRes.raise =>
        { setupRan := true, performCalls := 1, cleanupRan := false,
          completionReports := 0, escaped := true }
    | HookRes.ok =>
      match hooks.cleanup with
      | HookRes.raise =>
          { setupRan := true, performCalls := 1, cleanupRan := true,
            completionReports := 0, escaped := true }
      | HookRes.ok =>
          { setupRan := true, performCalls := 1, cleanupRan := true,
            completionReports := 1, escaped := false }

/-- The dispatcher side of one firing (`actionmanager.py`, `main_loop` lines
214–234 and `action_completed`): the instance is entered into the tracking
table before it is started; the instance then runs, and each completion
report it makes is processed by `action_completed`. -/
def fireAndRun (am : AMState) (t : ThreadId) (key : Key) (hooks : ActionHooks) :
    AMState × ActionTrace :=
  let tracked : AMState := { am with thread_mapping := dictSet am.thread_mapping t key }
  let tr := coreActionRunOnce hooks
  (if tr.completionReports == 1 then (action_completed tracked t).2 else tracked, tr)

/-! ## Definitions written from the specification, for comparison with the code -/

/-- Valid observation shape as the specification words it: one of
`{true, false, undefined}`, or a pair `(w, d)` with `w` a truth value and `d`
a dictionary.  Written from the spec for comparison with `parseObservation`
(which duck-types: any sized, subscriptable value of length 2 passes). -/
def specValidShape : PyVal → Bool
  | PyVal.prim _ => true
  | PyVal.ptuple [PyVal.prim _, PyVal.pdict _] => true
  | _ => false

/-- The shapes the code actually accepts: any sized value of length 2 whose
item 0 is a truth value and whose item 1 is a dictionary (so also lists, and
dictionaries with keys 0 and 1). -/
def duckValidShape (v : PyVal) : Bool :=
  hasLen v && (pyLen v == 2) &&
    (match getItem v 0, getItem v 1 with
     | Except.ok (PyVal.prim _), Except.ok (PyVal.pdict _) => true
     | _, _ => false)

/-- The inputs on which evaluating the shape condition raises something other
than `TypeError`: a sized value of length 2 where fetching item 0 — or item 1
after a truth-valued item 0 — raises (a `KeyError`, from a dictionary
without that key). -/
def lookupEscape (v : PyVal) : Bool :=
  hasLen v && (pyLen v == 2) &&
    (match getItem v 0 with
     | Except.error _ => true
     | Except.ok v0 =>
         inTFN v0 && (match getItem v 1 with
                      | Except.error _ => true
                      | Except.ok _ => false))

/-! ## Concrete fixtures used by witnesses and counterexamples -/

/-- A concrete `State(True, True)` value. -/
def sampleTT : StateV := { is_operating := TV.tt, result := TV.tt, secondary_attributes := [] }

/-- A concrete `State(False, False)` value. -/
def sampleFF : StateV := { is_operating := TV.ff, result := TV.ff, secondary_attributes := [] }

/-- A dispatcher state with two action classes `1` and `2` registered for the
single transition key `(0, (True,True), (False,False))`. -/
def amTwoActions : AMState :=
  { action_mapping := [((0, (TV.tt, TV.tt), (TV.ff, TV.ff)), [1, 2])],
    thread_mapping := [],
    action_queue := [] }

/-- A heap holding two distinct `State` objects with equal primary attributes
(addresses 0 and 1), as produced by constructing `State(True, True)` twice. -/
def twoEqHeap : Heap :=
  { objs := [{ is_operating := TV.tt, result := TV.tt, secondary_attributes := [], lockId := 0 },
             { is_operating := TV.tt, result := TV.tt, secondary_attributes := [], lockId := 1 }],
    nextLock := 2 }

/-! ## Helper lemmas about dictionaries and sets -/

theorem dictGet_mapReplace {κ ν : Type} [DecidableEq κ] (d : List (κ × ν)) (k : κ) (v : ν)
    (h : (dictGet k d).isSome = true) :
    dictGet k (d.map (fun kv => if kv.1 = k then (k, v) else kv)) = some v := by
  induction d with
  | nil => simp [dictGet] at h
  | cons kv rest ih =>
    obtain ⟨k0, v0⟩ := kv
    by_cases h0 : k0 = k
    · subst h0
      rw [List.map_cons, if_pos rfl]
      simp [dictGet]
    · rw [List.map_cons, if_neg h0]
      simp only [dictGet, if_neg h0] at h ⊢
      exact ih h

theorem dictGet_mapReplace_ne {κ ν : Type} [DecidableEq κ] (d : List (κ × ν)) (k k' : κ)
    (v : ν) (h : k' ≠ k) :
    dictGet k' (d.map (fun kv => if kv.1 = k then (k, v) else kv)) = dictGet k' d := by
  induction d with
  | nil => rfl
  | cons kv rest ih =>
    obtain ⟨k0, v0⟩ := kv
    by_cases h0 : k0 = k
    · subst h0
      rw [List.map_cons, if_pos rfl]
      simp only [dictGet, if_neg (Ne.symm h), if_neg fun hh : k0 = k' => h hh.symm]
      exact ih
    · rw [List.map_cons, if_neg h0]
      by_cases h1 : k0 = k'
      · simp only [dictGet, if_pos h1]
      · simp only [dictGet, if_neg h1]
        exact ih

theorem dictGet_append_single {κ ν : Type} [DecidableEq κ] (d : List (κ × ν)) (k : κ) (v : ν)
    (h : dictGet k d = none) :
    dictGet k (d ++ [(k, v)]) = some v := by
  induction d with
  | nil => simp [dictGet]
  | cons kv rest ih =>
    obtain ⟨k0, v0⟩ := kv
    by_cases h0 : k0 = k
    · simp only [dictGet, if_pos h0] at h
      exact Option.noConfusion h
    · simp only [dictGet, if_neg h0] at h
      simp only [List.cons_append, dictGet, if_neg h0]
      exact ih h

theorem dictGet_append_single_ne {κ ν : Type} [DecidableEq κ] (d : List (κ × ν)) (k k' : κ)
    (v : ν) (h : k' ≠ k) :
    dictGet k' (d ++ [(k, v)]) = dictGet k' d := by
  induction d with
  | nil => simp only [List.nil_append, dictGet, if_neg fun hh : k = k' => h hh.symm]
  | cons kv rest ih =>
    obtain ⟨k0, v0⟩ := kv
    by_cases h0 : k0 = k'
    · simp only [List.cons_append, dictGet, if_pos h0]
    · simp only [List.cons_append, dictGet, if_neg h0]
      exact ih

theorem dictGet_dictSet_self {κ ν : Type} [DecidableEq κ] (d : List (κ × ν)) (k : κ) (v : ν) :
    dictGet k (dictSet d k v) = some v := by
  unfold dictSet
  by_cases h : (dictGet k d).isSome = true
  · simp only [h, if_true]
    exact dictGet_mapReplace d k v h
  · simp only [h, if_false]
    exact dictGet_append_single d k v (Option.not_isSome_iff_eq_none.mp h)

theorem dictGet_dictSet_ne {κ ν : Type} [DecidableEq κ] (d : List (κ × ν)) (k k' : κ) (v : ν)
    (h : k' ≠ k) :
    dictGet k' (dictSet d k v) = dictGet k' d := by
  unfold dictSet
  by_cases hs : (dictGet k d).isSome = true
  · simp only [hs, if_true]
    exact dictGet_mapReplace_ne d k k' v h
  · simp only [hs, if_false]
    exact dictGet_append_single_ne d k k' v h

theorem dictGet_dictErase_self {κ ν : Type} [DecidableEq κ] (d : List (κ × ν)) (k : κ) :
    dictGet k (dictErase d k) = none := by
  unfold dictErase
  induction d with
  | nil => rfl
  | cons kv rest ih =>
    obtain ⟨k0, v0⟩ := kv
    by_cases h0 : k0 = k
    · rw [List.filter_cons_of_neg]
      · exact ih
      · simp [h0]
    · rw [List.filter_cons_of_pos]
      · simp only [dictGet, if_neg h0]
        exact ih
      · simp [h0]

theorem dictGet_dictErase_ne {κ ν : Type} [DecidableEq κ] (d : List (κ × ν)) (k k' : κ)
    (h : k' ≠ k) :
    dictGet k' (dictErase d k) = dictGet k' d := by
  unfold dictErase
  induction d with
  | nil => rfl
  | cons kv rest ih =>
    obtain ⟨k0, v0⟩ := kv
    by_cases h0 : k0 = k
    · subst h0
      rw [List.filter_cons_of_neg]
      · simp only [dictGet, if_neg fun hh : k0 = k' => h hh.symm]
        exact ih
      · simp
    · rw [List.filter_cons_of_pos]
      · by_cases h1 : k0 = k'
        · simp only [dictGet, if_pos h1]
        · simp only [dictGet, if_neg h1]
          exact ih
      · simp [h0]

theorem mem_pysetInsert {α : Type} [DecidableEq α] (l : List α) (a x : α) :
    x ∈ pysetInsert l a ↔ (x ∈ l ∨ x = a) := by
  unfold pysetInsert
  by_cases h : a ∈ l
  · simp only [if_pos h]
    constructor
    · exact Or.inl
    · rintro (hx | rfl)
      · exact hx
      · exact h
  · simp [if_neg h, List.mem_append]

theorem mem_pysetUnion {α : Type} [DecidableEq α] (l m : List α) (x : α) :
    x ∈ pysetUnion l m ↔ (x ∈ l ∨ x ∈ m) := by
  unfold pysetUnion
  induction m generalizing l with
  | nil => simp
  | cons b bs ih =>
    simp only [List.foldl_cons]
    rw [ih, mem_pysetInsert]
    constructor
    · rintro ((hx | rfl) | hx)
      · exact Or.inl hx
      · exact Or.inr (List.mem_cons_self _ _)
      · exact Or.inr (List.mem_cons_of_mem _ hx)
    · rintro (hx | hx)
      · exact Or.inl (Or.inl hx)
      · rcases List.mem_cons.mp hx with rfl | hx
        · exact Or.inl (Or.inr rfl)
        · exact Or.inr hx

/-! ## Claims -/

/-- C6: for arguments drawn from `{true, false, undefined}`, `State(op, result)`
constructs the single state with those primary fields; a wildcard on either
axis (or both) instead yields the cross product over `[True, False, None]`
for each wildcarded axis — 3, 6, or 9 states; `State('*', True)` expands to
exactly the 3 states whose result is true, and `State('*', '*')` to all 9
combinations. -/
theorem stateNew_wildcard_expansion :
    (∀ op r : TV, stateNew (StArg.val op) (StArg.val r) =
        StateOrColl.single { is_operating := op, result := r, secondary_attributes := [] })
  ∧ (∀ r : TV, stateNew StArg.star (StArg.val r) =
        StateOrColl.coll (tvAll.map fun op =>
          { is_operating := op, result := r, secondary_attributes := [] }))
  ∧ (∀ op : TV, stateNew (StArg.val op) StArg.star =
        StateOrColl.coll (tvAll.map fun r =>
          { is_operating := op, result := r, secondary_attributes := [] }))
  ∧ stateNew StArg.star StArg.star =
        StateOrColl.coll (tvAll.flatMap fun op => tvAll.map fun r =>
          { is_operating := op, result := r, secondary_attributes := [] })
  ∧ (∀ r : TV, (tvAll.map fun op =>
        ({ is_operating := op, result := r, secondary_attributes := [] } : StateV)).length = 3)
  ∧ (∀ op : TV, (tvAll.map fun r =>
        ({ is_operating := op, result := r, secondary_attributes := [] } : StateV)).length = 3)
  ∧ (tvAll.flatMap fun op => tvAll.map fun r =>
        ({ is_operating := op, result := r, secondary_attributes := [] } : StateV)).length = 9
  ∧ (∀ s : StateV, s ∈ (tvAll.map fun op =>
        ({ is_operating := op, result := TV.tt, secondary_attributes := [] } : StateV)) ↔
        (s.result = TV.tt ∧ s.secondary_attributes = []))
  ∧ (∀ s : StateV, s ∈ (tvAll.flatMap fun op => tvAll.map fun r =>
        ({ is_operating := op, result := r, secondary_attributes := [] } : StateV)) ↔
        s.secondary_attributes = []) := by
  refine ⟨fun op r => rfl, fun r => rfl, fun op => rfl, rfl,
          fun r => rfl, fun op => rfl, rfl, ?_, ?_⟩
  · intro s
    obtain ⟨op, r, sec⟩ := s
    constructor
    · intro hmem
      simp only [tvAll, List.map_cons, List.map_nil, List.mem_cons,
        List.mem_singleton, List.not_mem_nil, or_false] at hmem
      rcases hmem with h | h | h <;>
        · cases h
          exact ⟨rfl, rfl⟩
    · rintro ⟨hr, hsec⟩
      cases hr
      cases hsec
      cases op <;> simp [tvAll]
  · intro s
    obtain ⟨op, r, sec⟩ := s
    constructor
    · intro hmem
      simp only [tvAll, List.flatMap_cons, List.flatMap_nil, List.map_cons, List.map_nil,
        List.append_nil, List.mem_append, List.mem_cons, List.mem_singleton,
        List.not_mem_nil, or_false] at hmem
      rcases hmem with (h | h | h) | (h | h | h) | (h | h | h) <;>
        · cases h
          rfl
    · rintro hsec
      cases hsec
      cases op <;> cases r <;> simp [tvAll]

/-- C7: two independently constructed states `State(op1, result1)` and
`State(op2, result2)` compare equal exactly when `op1 = op2` and
`result1 = result2`; secondary attributes never affect the comparison. -/
theorem state_eq_primary_only :
    (∀ op1 r1 op2 r2 : TV, ∀ s1 s2 : StateV,
        stateNew (StArg.val op1) (StArg.val r1) = StateOrColl.single s1 →
        stateNew (StArg.val op2) (StArg.val r2) = StateOrColl.single s2 →
        (stateEq s1 s2 = true ↔ (op1 = op2 ∧ r1 = r2)))
  ∧ (∀ a b : StateV, stateEq a b = true ↔
        (a.is_operating = b.is_operating ∧ a.result = b.result)) := by
  constructor
  · intro op1 r1 op2 r2 s1 s2 h1 h2
    have e1 : s1 = { is_operating := op1, result := r1, secondary_attributes := [] } := by
      cases h1; rfl
    have e2 : s2 = { is_operating := op2, result := r2, secondary_attributes := [] } := by
      cases h2; rfl
    subst e1; subst e2
    simp [stateEq]
  · intro a b
    simp [stateEq]

/-- Closed witness for the hypotheses of `state_eq_primary_only`. -/
theorem state_eq_primary_only_witness :
    stateEq sampleTT sampleTT = true ↔ (TV.tt = TV.tt ∧ TV.tt = TV.tt) :=
  state_eq_primary_only.1 TV.tt TV.tt TV.tt TV.tt sampleTT sampleTT rfl rfl

/-- C1: `check_state_change` raises a type error (touching nothing) when
either state argument is a collection; with singular states and no mapping
entry for the key it returns with the queue and all registries unchanged;
with an entry it appends exactly one
`(action class, observable, initial, final)` tuple per registered action
class. -/
theorem check_state_change_spec (am : AMState) (observation : ObsId) :
    (∀ (c : List StateV) (x : StateArgv),
        check_state_change am observation (StateArgv.coll c) x = (some PyErr.typeError, am)
      ∧ check_state_change am observation x (StateArgv.coll c) = (some PyErr.typeError, am))
  ∧ (∀ i f : StateV,
        dictGet (observation, get_primary i, get_primary f) am.action_mapping = none →
        check_state_change am observation (StateArgv.single i) (StateArgv.single f) = (none, am))
  ∧ (∀ (i f : StateV) (actions : List ActionId),
        dictGet (observation, get_primary i, get_primary f) am.action_mapping = some actions →
        actions.Nodup →
          check_state_change am observation (StateArgv.single i) (StateArgv.single f) =
            (none, { am with action_queue :=
              am.action_queue ++ actions.map (fun a => (a, observation, i, f)) })
        ∧ (actions.map (fun a => (a, observation, i, f))).Nodup
        ∧ (∀ a : ActionId,
            (a, observation, i, f) ∈ actions.map (fun a => (a, observation, i, f))
              ↔ a ∈ actions)) := by
  refine ⟨?_, ?_, ?_⟩
  · intro c x
    constructor
    · cases x <;> rfl
    · cases x <;> rfl
  · intro i f h
    simp only [check_state_change, h]
  · intro i f actions h hnd
    have hinj : Function.Injective (fun a : ActionId => (a, observation, i, f)) := by
      intro a b hab
      exact congrArg Prod.fst hab
    refine ⟨?_, hnd.map hinj, ?_⟩
    · simp only [check_state_change, h]
    · intro a
      constructor
      · intro hm
        rcases List.mem_map.mp hm with ⟨b, hb, hba⟩
        cases hinj hba
        exact hb
      · intro ha
        exact List.mem_map.mpr ⟨a, ha, rfl⟩

/-- Closed witness for `check_state_change_spec`: two registered action
classes produce exactly two queued tuples. -/
theorem check_state_change_spec_witness :
    check_state_change amTwoActions 0 (StateArgv.single sampleTT) (StateArgv.single sampleFF) =
      (none, { amTwoActions with action_queue :=
        amTwoActions.action_queue ++ [1, 2].map (fun a => (a, 0, sampleTT, sampleFF)) })
    ∧ ([1, 2].map (fun a : ActionId => (a, (0 : ObsId), sampleTT, sampleFF))).Nodup
    ∧ (∀ a : ActionId,
        (a, (0 : ObsId), sampleTT, sampleFF)
            ∈ [1, 2].map (fun a : ActionId => (a, (0 : ObsId), sampleTT, sampleFF))
          ↔ a ∈ [1, 2]) :=
  (check_state_change_spec amTwoActions 0).2.2 sampleTT sampleFF [1, 2] rfl (by decide)

/-- Every successful parse of an observation yields a state whose
`is_operating` field is the `observed` flag. -/
theorem parseObservation_is_operating (obs : TV) (v : PyVal) (st : StateV) (attribs : AttrMap)
    (h : parseObservation obs v = Except.ok (st, attribs)) : st.is_operating = obs := by
  unfold parseObservation at h
  cases v <;> repeat' split at h
  all_goals
    first
      | exact Except.noConfusion h
      | (injection h with h1; injection h1 with ha hb; rw [← ha])

/-- C5: when `get_observation` raises, `check_observation` never propagates
the exception; the state produced has `operating = False` and retains the
previously cached result. -/
theorem check_observation_failure_masks (current : StateV) :
    ∃ r : CheckResult,
      check_observation current (Except.error ()) = Except.ok r
      ∧ r.state.is_operating = TV.ff
      ∧ r.state.result = current.result := by
  obtain ⟨op, res, sec⟩ := current
  cases op <;> cases res <;> exact ⟨_, rfl, rfl, rfl⟩

/-- C3: when the observed value parses, `check_observation` with an
unchanged primary pair reports nothing, merges the new secondary attributes
into the retained cached state and returns it; with a changed primary pair
it reports `(old, new)` exactly once, replaces the cache with the new state
and returns it; and the first check on a never-observed observable (cache
`(undefined, undefined)`) reports exactly once. -/
theorem check_observation_transition (current : StateV) (v : PyVal) (st : StateV)
    (attribs : AttrMap) (hp : parseObservation TV.tt v = Except.ok (st, attribs)) :
    (stateEq current st = true →
        check_observation current (Except.ok v) =
          Except.ok
            { state :=
                { current with
                  secondary_attributes := dictUpdate current.secondary_attributes attribs },
              notified := [] })
  ∧ (stateEq current st = false →
        check_observation current (Except.ok v) =
          Except.ok
            { state :=
                { st with
                  secondary_attributes := dictUpdate st.secondary_attributes attribs },
              notified :=
                [(current,
                  { st with
                    secondary_attributes := dictUpdate st.secondary_attributes attribs })] })
  ∧ (current = initialState →
        ∃ r : CheckResult,
          check_observation current (Except.ok v) = Except.ok r
          ∧ r.notified.length = 1) := by
  have hstep : check_observation current (Except.ok v) = checkParsed current TV.tt v := rfl
  refine ⟨?_, ?_, ?_⟩
  · intro heq
    rw [hstep]
    unfold checkParsed
    rw [hp]
    simp only [heq, if_true]
  · intro hne
    rw [hstep]
    unfold checkParsed
    rw [hp]
    simp only [hne, Bool.false_eq_true, if_false]
  · intro hinit
    subst hinit
    have hop : st.is_operating = TV.tt := parseObservation_is_operating TV.tt v st attribs hp
    have hne : stateEq initialState st = false := by
      unfold stateEq initialState
      rw [hop]
      rfl
    refine ⟨{ state :=
                { st with
                  secondary_attributes := dictUpdate st.secondary_attributes attribs },
              notified :=
                [(initialState,
                  { st with
                    secondary_attributes := dictUpdate st.secondary_attributes attribs })] },
            ?_, rfl⟩
    rw [hstep]
    unfold checkParsed
    rw [hp]
    simp only [hne, Bool.false_eq_true, if_false]

/-- Closed witness for `check_observation_transition`: a repeated `True`
observation with fresh secondary data merges in place without reporting, and
the first observation reports exactly once. -/
theorem check_observation_transition_witness :
    (check_observation sampleTT (Except.ok (PyVal.ptuple [PyVal.prim TV.tt,
          PyVal.pdict [(7, PyVal.prim TV.ff)]])) =
        Except.ok
          { state :=
              { sampleTT with
                secondary_attributes :=
                  dictUpdate sampleTT.secondary_attributes [(7, PyVal.prim TV.ff)] },
            notified := [] })
    ∧ ∃ r : CheckResult,
        check_observation initialState (Except.ok (PyVal.ptuple [PyVal.prim TV.tt,
            PyVal.pdict [(7, PyVal.prim TV.ff)]])) = Except.ok r
        ∧ r.notified.length = 1 :=
  ⟨(check_observation_transition sampleTT (PyVal.ptuple [PyVal.prim TV.tt,
        PyVal.pdict [(7, PyVal.prim TV.ff)]]) sampleTT [(7, PyVal.prim TV.ff)] rfl).1 rfl,
   (check_observation_transition initialState (PyVal.ptuple [PyVal.prim TV.tt,
        PyVal.pdict [(7, PyVal.prim TV.ff)]]) sampleTT [(7, PyVal.prim TV.ff)] rfl).2.2 rfl⟩

/-- C4 counterexample: a length-2 dictionary without key 0 (the value
`{'a': 1, 'b': 2}`, here keyed 3 and 4) is not a valid shape, yet the shape
check lets a `KeyError` — not a `TypeError` — escape, because `result[0]`
raises it while the condition is being evaluated and only `TypeError` is
caught. -/
theorem parseObservation_keyError_escapes :
    parseObservation TV.tt (PyVal.pdict [(3, PyVal.prim TV.tt), (4, PyVal.prim TV.ff)])
      = Except.error PyErr.keyError
    ∧ specValidShape (PyVal.pdict [(3, PyVal.prim TV.tt), (4, PyVal.prim TV.ff)]) = false
    ∧ PyErr.keyError ≠ PyErr.typeError :=
  ⟨rfl, rfl, by decide⟩

/-- C4 (amended): the shape check raises a type error exactly when the value
is neither a truth value nor duck-valid (any sized value of length 2 with a
truth-valued item 0 and a dictionary item 1); it succeeds exactly on truth
values and duck-valid values; a key error escapes exactly on `lookupEscape`
inputs (sized, length 2, fetching item 0 — or item 1 after a truth-valued
item 0 — raises); and no other exception kind ever escapes. -/
theorem parseObservation_error_spec (obs : TV) (v : PyVal) :
    (parseObservation obs v = Except.error PyErr.typeError ↔
        (inTFN v = false ∧ duckValidShape v = false ∧ lookupEscape v = false))
  ∧ ((∃ st attribs, parseObservation obs v = Except.ok (st, attribs)) ↔
        (inTFN v = true ∨ duckValidShape v = true))
  ∧ (parseObservation obs v = Except.error PyErr.keyError ↔ lookupEscape v = true)
  ∧ (∀ e, parseObservation obs v = Except.error e →
        (e = PyErr.typeError ∨ e = PyErr.keyError)) := by
  cases v with
  | prim r =>
    refine ⟨?_, ?_, ?_, ?_⟩ <;>
      simp [parseObservation, inTFN, duckValidShape, lookupEscape, hasLen]
  | ptuple l =>
    rcases l with _ | ⟨a, _ | ⟨b, _ | ⟨c, rest⟩⟩⟩
    · refine ⟨?_, ?_, ?_, ?_⟩ <;>
        simp [parseObservation, inTFN, duckValidShape, lookupEscape, hasLen, pyLen, getItem]
    · refine ⟨?_, ?_, ?_, ?_⟩ <;>
        simp [parseObservation, inTFN, duckValidShape, lookupEscape, hasLen, pyLen, getItem]
    · cases a <;> cases b <;>
        (refine ⟨?_, ?_, ?_, ?_⟩ <;>
          simp [parseObservation, inTFN, duckValidShape, lookupEscape, hasLen, pyLen,
            getItem, isDict])
    · refine ⟨?_, ?_, ?_, ?_⟩ <;>
        simp [parseObservation, inTFN, duckValidShape, lookupEscape, hasLen, pyLen, getItem]
  | plist l =>
    rcases l with _ | ⟨a, _ | ⟨b, _ | ⟨c, rest⟩⟩⟩
    · refine ⟨?_, ?_, ?_, ?_⟩ <;>
        simp [parseObservation, inTFN, duckValidShape, lookupEscape, hasLen, pyLen, getItem]
    · refine ⟨?_, ?_, ?_, ?_⟩ <;>
        simp [parseObservation, inTFN, duckValidShape, lookupEscape, hasLen, pyLen, getItem]
    · cases a <;> cases b <;>
        (refine ⟨?_, ?_, ?_, ?_⟩ <;>
          simp [parseObservation, inTFN, duckValidShape, lookupEscape, hasLen, pyLen,
            getItem, isDict])
    · refine ⟨?_, ?_, ?_, ?_⟩ <;>
        simp [parseObservation, inTFN, duckValidShape, lookupEscape, hasLen, pyLen, getItem]
  | pdict l =>
    rcases hlen : (l.length == 2 : Bool) with _ | _
    · refine ⟨?_, ?_, ?_, ?_⟩ <;>
        simp [parseObservation, inTFN, duckValidShape, lookupEscape, hasLen, pyLen, hlen]
    · rcases h0 : dictGet (0 : Nat) l with _ | v0
      · refine ⟨?_, ?_, ?_, ?_⟩ <;>
          simp [parseObservation, inTFN, duckValidShape, lookupEscape, hasLen, pyLen,
            hlen, getItem, h0]
      · cases v0 with
        | prim r =>
          rcases h1 : dictGet (1 : Nat) l with _ | v1
          · refine ⟨?_, ?_, ?_, ?_⟩ <;>
              simp [parseObservation, inTFN, duckValidShape, lookupEscape, hasLen, pyLen,
                hlen, getItem, h0, h1]
          · cases v1 <;>
              (refine ⟨?_, ?_, ?_, ?_⟩ <;>
                simp [parseObservation, inTFN, duckValidShape, lookupEscape, hasLen, pyLen,
                  hlen, getItem, h0, h1, isDict])
        | ptuple m =>
          refine ⟨?_, ?_, ?_, ?_⟩ <;>
            simp [parseObservation, inTFN, duckValidShape, lookupEscape, hasLen, pyLen,
              hlen, getItem, h0]
        | plist m =>
          refine ⟨?_, ?_, ?_, ?_⟩ <;>
            simp [parseObservation, inTFN, duckValidShape, lookupEscape, hasLen, pyLen,
              hlen, getItem, h0]
        | pdict m =>
          refine ⟨?_, ?_, ?_, ?_⟩ <;>
            simp [parseObservation, inTFN, duckValidShape, lookupEscape, hasLen, pyLen,
              hlen, getItem, h0]

/-- Helper: when the processed keys are pairwise distinct and all present,
the removal loop never raises, and the final mapping holds, for each
processed key, the difference of its action set (pruned when empty), leaving
all other keys untouched. -/
theorem removeKeys_ok (action : List ActionId) :
    ∀ (keys : List Key) (m : List (Key × List ActionId)),
      keys.Nodup →
      (∀ k ∈ keys, (dictGet k m).isSome = true) →
      (removeKeys m action keys).1 = none
      ∧ ∀ key : Key,
          dictGet key (removeKeys m action keys).2 =
            if key ∈ keys then
              match dictGet key m with
              | some s =>
                  if (pysetDiff s action).length = 0 then none else some (pysetDiff s action)
              | none => none
            else dictGet key m := by
  intro keys
  induction keys with
  | nil =>
    intro m _ _
    exact ⟨rfl, fun key => by simp [removeKeys]⟩
  | cons k rest ih =>
    intro m hnd hsome
    have hk : (dictGet k m).isSome = true := hsome k (List.mem_cons_self _ _)
    rcases hs : dictGet k m with _ | s
    · rw [hs] at hk
      simp at hk
    · have hknr : k ∉ rest := (List.nodup_cons.mp hnd).1
      have hndr : rest.Nodup := (List.nodup_cons.mp hnd).2
      set s2 := pysetDiff s action with hs2
      set m2 : List (Key × List ActionId) :=
        if s2.length == 0 then dictErase m k else dictSet m k s2 with hm2
      have hstep : removeKeys m action (k :: rest) = removeKeys m2 action rest := by
        rw [hm2, hs2]
        simp only [removeKeys, hs]
      have hm2k : dictGet k m2 = if s2.length = 0 then none else some s2 := by
        rw [hm2]
        by_cases hz : s2.length = 0
        · rw [if_pos (by simpa using hz), if_pos hz]
          exact dictGet_dictErase_self m k
        · rw [if_neg (by simpa using hz), if_neg hz]
          exact dictGet_dictSet_self m k s2
      have hm2ne : ∀ key : Key, key ≠ k → dictGet key m2 = dictGet key m := by
        intro key hne
        rw [hm2]
        by_cases hz : (s2.length == 0) = true
        · rw [if_pos hz]
          exact dictGet_dictErase_ne m k key hne
        · rw [if_neg hz]
          exact dictGet_dictSet_ne m k key s2 hne
      have hsome2 : ∀ k' ∈ rest, (dictGet k' m2).isSome = true := by
        intro k' hk'
        have hne : k' ≠ k := fun h => hknr (h ▸ hk')
        rw [hm2ne k' hne]
        exact hsome k' (List.mem_cons_of_mem _ hk')
      refine ⟨?_, ?_⟩
      · rw [hstep]
        exact (ih m2 hndr hsome2).1
      · intro key
        rw [hstep, (ih m2 hndr hsome2).2 key]
        by_cases hkey : key = k
        · subst hkey
          rw [if_neg hknr, if_pos (List.mem_cons_self _ _), hs, hm2k]
        · have hne2 : dictGet key m2 = dictGet key m := hm2ne key hkey
          by_cases hkr : key ∈ rest
          · rw [if_pos hkr, if_pos (List.mem_cons_of_mem _ hkr), hne2]
          · rw [if_neg hkr, if_neg (by simp [hkey, hkr]), hne2]

/-- C2 (amended): in `disassociate`, with the transition keys pairwise
distinct, a lookup error is raised iff some key is absent from the mapping
or the intersection of its action set with the given action set does not
have exactly one element; on error the mapping is unchanged; on success
every given action is removed from every key and entries whose set became
empty are pruned, with all other registries and entries untouched. -/
theorem disassociate_spec (am : AMState) (action : List ActionId) (observation : ObsId)
    (initial_state final_state : List StateV) (keys : List Key) (e : Option PyErr)
    (am2 : AMState)
    (hkeys : keys = transitionKeys observation initial_state final_state)
    (hnd : keys.Nodup)
    (hrun : disassociate_action_from_state_change am action observation initial_state final_state
              = (e, am2)) :
    (e = none ↔ ∀ k ∈ keys, keyOk am.action_mapping action k = true)
  ∧ (e = some PyErr.keyError ↔ ¬ ∀ k ∈ keys, keyOk am.action_mapping action k = true)
  ∧ (∀ k : Key, keyOk am.action_mapping action k = false ↔
      (dictGet k am.action_mapping = none
        ∨ ∃ s, dictGet k am.action_mapping = some s ∧ (pysetInter s action).length ≠ 1))
  ∧ (e ≠ none → am2 = am)
  ∧ (e = none →
      am2.thread_mapping = am.thread_mapping
      ∧ am2.action_queue = am.action_queue
      ∧ ∀ key : Key,
          dictGet key am2.action_mapping =
            if key ∈ keys then
              match dictGet key am.action_mapping with
              | some s =>
                  if (pysetDiff s action).length = 0 then none else some (pysetDiff s action)
              | none => none
            else dictGet key am.action_mapping) := by
  have hko : ∀ k : Key, keyOk am.action_mapping action k = false ↔
      (dictGet k am.action_mapping = none
        ∨ ∃ s, dictGet k am.action_mapping = some s
            ∧ (pysetInter s action).length ≠ 1) := by
    intro k
    unfold keyOk
    rcases hlk : dictGet k am.action_mapping with _ | s
    · simp
    · simp only []
      constructor
      · intro hf
        exact Or.inr ⟨s, rfl, by simpa using hf⟩
      · rintro (h | ⟨s', hss', hlen⟩)
        · exact absurd h (by simp)
        · injection hss' with hss'
          subst hss'
          simpa using hlen
  subst hkeys
  simp only [disassociate_action_from_state_change] at hrun
  by_cases hall : (transitionKeys observation initial_state final_state).all
      (keyOk am.action_mapping action) = true
  · rw [if_pos hall] at hrun
    have hsome : ∀ k ∈ transitionKeys observation initial_state final_state,
        (dictGet k am.action_mapping).isSome = true := by
      intro k hk
      have hok := List.all_eq_true.mp hall k hk
      unfold keyOk at hok
      rcases hlk : dictGet k am.action_mapping with _ | s
      · rw [hlk] at hok
        simp at hok
      · rfl
    obtain ⟨hnone, hchar⟩ := removeKeys_ok action
      (transitionKeys observation initial_state final_state) am.action_mapping hnd hsome
    injection hrun with h1 h2
    subst h1
    subst h2
    refine ⟨?_, ?_, hko, ?_, ?_⟩
    · exact iff_of_true hnone (List.all_eq_true.mp hall)
    · refine iff_of_false ?_ ?_
      · rw [hnone]
        simp
      · intro hcon
        exact hcon (List.all_eq_true.mp hall)
    · intro hne
      exact absurd hnone hne
    · intro _
      exact ⟨rfl, rfl, hchar⟩
  · rw [if_neg hall] at hrun
    injection hrun with h1 h2
    subst h1
    subst h2
    refine ⟨?_, ?_, hko, ?_, ?_⟩
    · refine iff_of_false (by simp) ?_
      intro hcon
      exact hall (List.all_eq_true.mpr hcon)
    · refine iff_of_true rfl ?_
      intro hcon
      exact hall (List.all_eq_true.mpr hcon)
    · intro _
      rfl
    · intro hcon
      exact absurd hcon (by simp)

/-- C2 counterexample: action classes 1 and 2 are both registered under the
one transition key, so the set of given actions intersects the registered
set (the intersection is the whole set), yet `disassociate` raises a
`KeyError` because the code demands the intersection have length exactly 1. -/
theorem disassociate_nonempty_intersection_raises :
    disassociate_action_from_state_change amTwoActions [1, 2] 0 [sampleTT] [sampleFF]
      = (some PyErr.keyError, amTwoActions)
    ∧ dictGet ((0 : ObsId), get_primary sampleTT, get_primary sampleFF)
        amTwoActions.action_mapping = some [1, 2]
    ∧ pysetInter [1, 2] [1, 2] ≠ ([] : List ActionId) :=
  ⟨rfl, rfl, by decide⟩

/-- Closed witness for the hypotheses of `disassociate_spec`. -/
theorem disassociate_spec_witness :
    (none : Option PyErr) = none ↔
      ∀ k ∈ transitionKeys 0 [sampleTT] [sampleFF],
        keyOk amTwoActions.action_mapping [1] k = true :=
  (disassociate_spec amTwoActions [1] 0 [sampleTT] [sampleFF]
    (transitionKeys 0 [sampleTT] [sampleFF]) none
    { amTwoActions with action_mapping := [((0, (TV.tt, TV.tt), (TV.ff, TV.ff)), [2])] }
    rfl (by decide) rfl).1

/-- C8: `copy()` yields an object at a fresh address (distinct identity)
whose primary fields and secondary data equal the original's, holding a
fresh lock distinct from every live lock; afterwards, setting a secondary
attribute on the copy leaves the original untouched and vice versa. -/
theorem state_copy_spec (h : Heap) (a : Nat) (o : StateObj)
    (ha : h.get a = some o)
    (hfresh : ∀ p ∈ h.objs, p.lockId < h.nextLock) :
    (stateCopy h a).2 ≠ a
    ∧ (stateCopy h a).1.get (stateCopy h a).2 = some { o with lockId := h.nextLock }
    ∧ (stateCopy h a).1.get a = some o
    ∧ o.lockId ≠ h.nextLock
    ∧ (∀ p ∈ h.objs, p.lockId ≠ h.nextLock)
    ∧ (∀ k v, (set_secondary (stateCopy h a).1 (stateCopy h a).2 k v).get a = some o)
    ∧ (∀ k v, (set_secondary (stateCopy h a).1 a k v).get (stateCopy h a).2
        = some { o with lockId := h.nextLock }) := by
  have ha' : h.objs[a]? = some o := ha
  have halt : a < h.objs.length := by
    rcases List.getElem?_eq_some.mp ha' with ⟨hl, _⟩
    exact hl
  have hmem : o ∈ h.objs := by
    rcases List.getElem?_eq_some.mp ha' with ⟨hl, hg⟩
    exact hg ▸ List.getElem_mem hl
  have hc : stateCopy h a =
      ({ objs := h.objs ++ [{ o with lockId := h.nextLock }], nextLock := h.nextLock + 1 },
       h.objs.length) := by
    unfold stateCopy
    rw [ha]
  have hgetc : (stateCopy h a).1.get (stateCopy h a).2 =
      some { o with lockId := h.nextLock } := by
    rw [hc]
    exact List.getElem?_concat_length h.objs { o with lockId := h.nextLock }
  have hgeta : (stateCopy h a).1.get a = some o := by
    rw [hc]
    show (h.objs ++ [{ o with lockId := h.nextLock }])[a]? = some o
    rw [List.getElem?_append_left halt]
    exact ha'
  refine ⟨?_, hgetc, hgeta, ?_, ?_, ?_, ?_⟩
  · rw [hc]
    exact ne_of_gt halt
  · exact Nat.ne_of_lt (hfresh o hmem)
  · intro p hp
    exact Nat.ne_of_lt (hfresh p hp)
  · intro k v
    unfold set_secondary
    rw [hgetc, hc]
    show ((h.objs ++ [{ o with lockId := h.nextLock }]).set h.objs.length _)[a]? = some o
    rw [List.getElem?_set_ne (ne_of_gt halt), List.getElem?_append_left halt]
    exact ha'
  · intro k v
    unfold set_secondary
    rw [hgeta, hc]
    show ((h.objs ++ [{ o with lockId := h.nextLock }]).set a _)[h.objs.length]? =
      some { o with lockId := h.nextLock }
    rw [List.getElem?_set_ne (ne_of_lt halt)]
    exact List.getElem?_concat_length h.objs { o with lockId := h.nextLock }

/-- Closed witness for the hypotheses of `state_copy_spec`. -/
theorem state_copy_spec_witness :
    (stateCopy twoEqHeap 0).2 ≠ 0
    ∧ (stateCopy twoEqHeap 0).1.get (stateCopy twoEqHeap 0).2 =
        some { is_operating := TV.tt, result := TV.tt, secondary_attributes := [], lockId := 2 }
    ∧ (stateCopy twoEqHeap 0).1.get 0 =
        some { is_operating := TV.tt, result := TV.tt, secondary_attributes := [], lockId := 0 }
    ∧ (0 : Nat) ≠ 2
    ∧ (∀ p ∈ twoEqHeap.objs, p.lockId ≠ 2)
    ∧ (∀ k v, (set_secondary (stateCopy twoEqHeap 0).1 (stateCopy twoEqHeap 0).2 k v).get 0 =
        some { is_operating := TV.tt, result := TV.tt, secondary_attributes := [], lockId := 0 })
    ∧ (∀ k v, (set_secondary (stateCopy twoEqHeap 0).1 0 k v).get (stateCopy twoEqHeap 0).2 =
        some { is_operating := TV.tt, result := TV.tt, secondary_attributes := [], lockId := 2 }) :=
  state_copy_spec twoEqHeap 0
    { is_operating := TV.tt, result := TV.tt, secondary_attributes := [], lockId := 0 }
    rfl (by decide)

/-- C9 (amended): `StateCollection` membership is identity-or-value
equality; a union of two states or of two collections is the plain set
holding exactly the members of both; but the C-level subset comparison is
identity-based — it holds iff every member of the left set is a member (as
an object) of the right set, regardless of value equality. -/
theorem stateCollection_pyset_semantics (h : Heap) :
    (∀ (c : List Nat) (s : Nat),
        scContains h c s = true ↔ ∃ a ∈ c, a = s ∨ valueEqAt h a s = true)
  ∧ (∀ s1 s2 x : Nat, pysetMem (stateUnion s1 s2) x = true ↔ (x = s1 ∨ x = s2))
  ∧ (∀ (c1 c2 : List Nat) (x : Nat), pysetMem (pysetOr c1 c2) x = true ↔
        (pysetMem c1 x = true ∨ pysetMem c2 x = true))
  ∧ (∀ c1 c2 : List Nat, pysetIssubset c1 c2 = true ↔ ∀ a ∈ c1, a ∈ c2) := by
  refine ⟨?_, ?_, ?_, ?_⟩
  · intro c s
    simp [scContains, List.any_eq_true, Bool.or_eq_true, beq_iff_eq]
  · intro s1 s2 x
    simp only [stateUnion, pysetOr, pysetMem, List.elem_iff,
      mem_pysetUnion, mem_pysetInsert, List.not_mem_nil, false_or]
  · intro c1 c2 x
    simp only [pysetOr, pysetMem, List.elem_iff, mem_pysetUnion]
  · intro c1 c2
    simp [pysetIssubset, List.all_eq_true, List.elem_iff]

/-- C9 counterexample: two independently constructed `State(True, True)`
objects live at addresses 0 and 1; every state of the collection `{0}` is
value-equal to a state of `{1}` (and the `StateCollection.__contains__`
override agrees), yet the subset comparison the claim ascribes to
`StateCollection` returns false, because CPython's `set` comparison hashes
by identity and bypasses the override. -/
theorem scSubset_ignores_value_equality :
    valueEqAt twoEqHeap 0 1 = true
    ∧ scContains twoEqHeap [1] 0 = true
    ∧ pysetIssubset [0] [1] = false :=
  ⟨rfl, rfl, rfl⟩

/-- Helper: reporting completion for an instance just entered into the
tracking table removes exactly that entry. -/
theorem action_completed_tracked (am : AMState) (t : ThreadId) (key : Key) :
    action_completed { am with thread_mapping := dictSet am.thread_mapping t key } t =
      (none,
       { am with thread_mapping := dictErase (dictSet am.thread_mapping t key) t }) := by
  unfold action_completed
  rw [show dictGet t
        ({ am with thread_mapping := dictSet am.thread_mapping t key } : AMState).thread_mapping
      = some key from dictGet_dictSet_self am.thread_mapping t key]

/-- C10: a fired `CoreAction` (whose `do_loop` defaults to false, so its step
runs once) that returns normally from `perform_action` runs `cleanup` and
reports completion exactly once, which removes its tracking-table entry;
if `perform_action` raises, `after_loop`, `cleanup` and the completion
report are all skipped and the tracking-table entry is never removed. -/
theorem coreAction_lifecycle (hooks : ActionHooks) (am : AMState) (t : ThreadId) (key : Key)
    (hsetup : hooks.setup = HookRes.ok)
    (hclean : hooks.cleanup = HookRes.ok) :
    coreActionDoLoop none 0 = some false
    ∧ (hooks.perform_action = HookRes.ok →
        (coreActionRunOnce hooks).cleanupRan = true
        ∧ (coreActionRunOnce hooks).completionReports = 1
        ∧ dictGet t (fireAndRun am t key hooks).1.thread_mapping = none)
    ∧ (hooks.perform_action = HookRes.raise →
        (coreActionRunOnce hooks).cleanupRan = false
        ∧ (coreActionRunOnce hooks).completionReports = 0
        ∧ dictGet t (fireAndRun am t key hooks).1.thread_mapping = some key) := by
  obtain ⟨hs, hp, hc⟩ := hooks
  cases hsetup
  cases hclean
  refine ⟨rfl, ?_, ?_⟩
  · intro hperf
    cases hperf
    refine ⟨rfl, rfl, ?_⟩
    show dictGet t (fireAndRun am t key ⟨HookRes.ok, HookRes.ok, HookRes.ok⟩).1.thread_mapping
        = none
    have h2 : (fireAndRun am t key ⟨HookRes.ok, HookRes.ok, HookRes.ok⟩).1 =
        (action_completed { am with thread_mapping := dictSet am.thread_mapping t key } t).2 :=
      rfl
    rw [h2, action_completed_tracked am t key]
    exact dictGet_dictErase_self (dictSet am.thread_mapping t key) t
  · intro hperf
    cases hperf
    refine ⟨rfl, rfl, ?_⟩
    show dictGet t (fireAndRun am t key ⟨HookRes.ok, HookRes.raise, HookRes.ok⟩).1.thread_mapping
        = some key
    exact dictGet_dictSet_self am.thread_mapping t key

/-- Closed witness for the hypotheses of `coreAction_lifecycle`. -/
theorem coreAction_lifecycle_witness :
    (coreActionDoLoop none 0 = some false
      ∧ (HookRes.ok = HookRes.ok →
          (coreActionRunOnce ⟨HookRes.ok, HookRes.ok, HookRes.ok⟩).cleanupRan = true
          ∧ (coreActionRunOnce ⟨HookRes.ok, HookRes.ok, HookRes.ok⟩).completionReports = 1
          ∧ dictGet 5 (fireAndRun amTwoActions 5 (0, (TV.tt, TV.tt), (TV.ff, TV.ff))
              ⟨HookRes.ok, HookRes.ok, HookRes.ok⟩).1.thread_mapping = none)
      ∧ (HookRes.ok = HookRes.raise →
          (coreActionRunOnce ⟨HookRes.ok, HookRes.ok, HookRes.ok⟩).cleanupRan = false
          ∧ (coreActionRunOnce ⟨HookRes.ok, HookRes.ok, HookRes.ok⟩).completionReports = 0
          ∧ dictGet 5 (fireAndRun amTwoActions 5 (0, (TV.tt, TV.tt), (TV.ff, TV.ff))
              ⟨HookRes.ok, HookRes.ok, HookRes.ok⟩).1.thread_mapping
            = some (0, (TV.tt, TV.tt), (TV.ff, TV.ff))))
    ∧ ((coreActionRunOnce ⟨HookRes.ok, HookRes.raise, HookRes.ok⟩).cleanupRan = false
      ∧ (coreActionRunOnce ⟨HookRes.ok, HookRes.raise, HookRes.ok⟩).completionReports = 0
      ∧ dictGet 5 (fireAndRun amTwoActions 5 (0, (TV.tt, TV.tt), (TV.ff, TV.ff))
          ⟨HookRes.ok, HookRes.raise, HookRes.ok⟩).1.thread_mapping
        = some (0, (TV.tt, TV.tt), (TV.ff, TV.ff))) :=
  ⟨coreAction_lifecycle ⟨HookRes.ok, HookRes.ok, HookRes.ok⟩ amTwoActions 5
      (0, (TV.tt, TV.tt), (TV.ff, TV.ff)) rfl rfl,
   (coreAction_lifecycle ⟨HookRes.ok, HookRes.raise, HookRes.ok⟩ amTwoActions 5
      (0, (TV.tt, TV.tt), (TV.ff, TV.ff)) rfl rfl).2.2 rfl⟩

end GDCI
